import Mathlib

/-!
# Verification of the Telegram ticket-bot booking workflow engine

A shallow embedding of `src/bot.py` (a python-telegram-bot v13 application):
the record store (`next_id`, `save_application`, `save_hotel`, `archive_item`),
status rendering (`STATUSES`, `STATUS_COLORS`, the card / page colour lookup),
pagination (`build_page`), the admin command gates (`cmd_set_status`,
`cmd_admin_all`, ...), the unguarded card status-change callback
(`cb_change_status`), the owner-facing cancel callbacks
(`cb_cancel_app_by_id`, `cb_cancel_hotel_by_id`), the reminder scan
(`check_reminders`) and the branching intake conversation
(states `NAME` .. `RETURN_DATE` with handlers `flow_name` .. `cb_confirm_app`).

Conventions of the embedding:
* pandas tables become Lean lists of structure values; a write replaces the
  whole list (matching the whole-table read-modify-write of the source);
* a calendar day parsed from a `DD.MM.YYYY` token is a `Nat` day ordinal.
  The source stores `d.strftime("%d.%m.%Y")` and re-parses it with
  `datetime.strptime(_, "%d.%m.%Y")`, a round trip that is the identity on
  valid days, so a stored date string is represented by `Option Nat`
  (`none` for the empty string `""`);
* python `int` is Lean `Int` (arbitrary precision in both);
* raw-text echo fields that no other code reads (`date_raw`, `hotel_date`)
  are not carried.
-/

namespace TicketBot

/-! ## Record store: `next_id` (bot.py lines 193-198)

A pandas `ID` column cell either holds an integer or something on which
`int(df["ID"].max())` raises (strings, NaN); `Cell.nonInt` stands for any
such value.  `DFrame` keeps the per-row content of the `ID` column together
with the fact of whether the column exists at all (`'ID' in df.columns`);
when the column is absent the list only carries the row count. -/

inductive Cell where
  | intVal (n : Int)
  | nonInt
  deriving DecidableEq, Repr

structure DFrame where
  hasIdCol : Bool
  /-- one entry per row: the row's `ID` cell (meaningful when `hasIdCol`). -/
  idCol : List Cell
  deriving DecidableEq, Repr

/-- All cells as integers, `none` as soon as one cell is non-numeric
(then `int(df["ID"].max())` raises in the source). -/
def colInts : List Cell → Option (List Int)
  | [] => some []
  | Cell.intVal n :: cs =>
      match colInts cs with
      | some ns => some (n :: ns)
      | none => none
  | Cell.nonInt :: _ => none

/-- Maximum of a list of integers (`df["ID"].max()` on a nonempty
all-integer column); `0` on `[]`, a case `next_id` never reaches. -/
def listMax : List Int → Int
  | [] => 0
  | a :: t => t.foldl max a

/-- `next_id` (bot.py 193-198): `1` if the table is empty or has no `ID`
column, else `int(df["ID"].max()) + 1`; the bare `except:` falls back to
`len(df) + 1`. -/
def next_id (df : DFrame) : Int :=
  if df.idCol.isEmpty || !df.hasIdCol then 1
  else
    match colInts df.idCol with
    | some ns => listMax ns + 1
    | none => (df.idCol.length : Int) + 1

/-! ## Status vocabulary (bot.py 52-73) -/

def STATUSES : List (String × String) :=
  [ ("pending", "🕒 На рассмотрении")
  , ("waiting_payment", "💰 Ожидает оплаты")
  , ("approved", "✅ Одобрено")
  , ("ticket_issued", "🎫 Билет выдан")
  , ("in_progress", "🚉 В пути")
  , ("completed", "✅ Завершено")
  , ("rejected", "❌ Отклонено")
  , ("cancelled", "🚫 Отменено") ]

def STATUS_COLORS : List (String × String) :=
  [ ("pending", "🟡")
  , ("waiting_payment", "🟠")
  , ("approved", "🟢")
  , ("ticket_issued", "🔵")
  , ("in_progress", "🟣")
  , ("completed", "🟤")
  , ("rejected", "🔴")
  , ("cancelled", "⚫") ]

/-- Dictionary lookup `STATUSES[key]` as used by `cb_change_status`. -/
def statusOfKey (key : String) : Option String :=
  (STATUSES.find? (fun kv => kv.1 == key)).map (fun kv => kv.2)

/-- The canonical status label for `"pending"`; `save_application` and
`save_hotel` are called with this as the initial status. -/
def pendingStatus : String := "🕒 На рассмотрении"

/-- The eight canonical status labels (the values of `STATUSES`). -/
def canonicalStatusValues : List String := STATUSES.map (fun kv => kv.2)

/-- The status → colour-marker lookup shared verbatim by
`format_application_card` (bot.py 538-540), `format_hotel_card` (594-595)
and `build_page` (639-648):
`status_key = next((k for k, v in STATUSES.items() if v == status), "pending")`
then `STATUS_COLORS.get(status_key, "⚪")`. -/
def statusColor (status : String) : String :=
  let statusKey :=
    match STATUSES.find? (fun kv => kv.2 == status) with
    | some kv => kv.1
    | none => "pending"
  match STATUS_COLORS.find? (fun kv => kv.1 == statusKey) with
  | some kv => kv.2
  | none => "⚪"

/-! ## Rows of the two live tables (columns from `init_files`, bot.py 136-158,
populated by `save_application` / `save_hotel`) -/

structure AppRow where
  id : Int
  userId : Int
  fio : String
  route : String
  /-- the `Date` column; `none` is the empty string. -/
  date : Option Nat
  timeOfDay : String
  reason : String
  status : String
  returnRoute : String
  /-- the `ReturnDate` column; `none` is the empty string. -/
  returnDate : Option Nat
  isRoundTrip : Bool
  deriving DecidableEq, Repr

structure HotelRow where
  id : Int
  userId : Int
  fio : String
  hotelCity : String
  checkIn : Option Nat
  checkOut : Option Nat
  roomType : String
  status : String
  deriving DecidableEq, Repr

/-- View of the live applications table as the dataframe `next_id` receives:
the `ID` column exists (created by `init_files`) and every saved id is an
integer. -/
def appsToDF (apps : List AppRow) : DFrame :=
  ⟨true, apps.map (fun r => Cell.intVal r.id)⟩

def hotelsToDF (hotels : List HotelRow) : DFrame :=
  ⟨true, hotels.map (fun r => Cell.intVal r.id)⟩

/-! ## Python string primitives

Executable models of `str.split(sep)`, `str.split()` and `str.strip()`;
structurally recursive so that concrete dialogues evaluate inside `decide`. -/

/-- Worker for `pySplit`; the fuel is the length of the scanned list, which
bounds the recursion depth (each step consumes at least one character). -/
def splitSepFuel (sep : List Char) : Nat → List Char → List (List Char)
  | _, [] => [[]]
  | 0, s => [s]
  | fuel+1, c :: rest =>
      if sep ≠ [] && sep.isPrefixOf (c :: rest) then
        [] :: splitSepFuel sep fuel ((c :: rest).drop sep.length)
      else
        match splitSepFuel sep fuel rest with
        | [] => [[c]]
        | h :: t => (c :: h) :: t

/-- Python `s.split(sep)` for a non-empty separator: non-overlapping
left-to-right occurrences; `"".split(sep) == [""]`. -/
def pySplit (s sep : String) : List String :=
  (splitSepFuel sep.toList s.toList.length s.toList).map List.asString

def pyWordsAux : List Char → List Char → List (List Char)
  | [], [] => []
  | [], acc => [acc.reverse]
  | c :: rest, acc =>
      if c.isWhitespace then
        if acc.isEmpty then pyWordsAux rest []
        else acc.reverse :: pyWordsAux rest []
      else pyWordsAux rest (c :: acc)

/-- Python `s.split()` (no separator): maximal runs of non-whitespace. -/
def pyWords (s : String) : List String :=
  (pyWordsAux s.toList []).map List.asString

/-- Python `s.strip()`. -/
def pyStrip (s : String) : String :=
  ((s.toList.dropWhile Char.isWhitespace).reverse.dropWhile
    Char.isWhitespace).reverse.asString

/-! ## Date handling (bot.py 204-239)

`parse_single_date` / `parse_date_range` extract `DD.MM.YYYY` tokens with a
regex and validate them through `datetime.strptime`; a parsed calendar day
is a `Nat` day ordinal here, and a message's parse outcome rides on the
event (`none` models the raised `ValueError`). -/

/-- `is_future_or_today(d)` (bot.py 237-239): `d >= datetime.now().date()`. -/
def is_future_or_today (today d : Nat) : Bool := today ≤ d

/-! ## Reminder scan (bot.py 1726-1750)

`check_reminders` parses each stored `Date` / `CheckIn` string back to a
midnight `datetime` and compares with `datetime.now()`:
`timedelta(days=3) <= (app_date - datetime.now()) <= timedelta(days=4)`.
Instants are integer seconds; the midnight instant of day ordinal `d` is
`d * 86400`.  A row whose date string does not parse is skipped by the
`except: continue`. -/

structure Reminder where
  userId : Int
  itemType : String
  itemId : Int
  tripDay : Nat
  deriving DecidableEq, Repr

def SECONDS_PER_DAY : Int := 86400

/-- The eligibility window of `check_reminders`, inclusive at both ends. -/
def reminderWindow (now : Int) (d : Nat) : Bool :=
  3 * SECONDS_PER_DAY ≤ (d : Int) * SECONDS_PER_DAY - now &&
  (d : Int) * SECONDS_PER_DAY - now ≤ 4 * SECONDS_PER_DAY

/-- The reminder an application row yields on one scan (`none`: unparseable
date or outside the window). -/
def remApp (now : Int) (r : AppRow) : Option Reminder :=
  match r.date with
  | none => none
  | some d =>
      if reminderWindow now d then
        some { userId := r.userId, itemType := "app", itemId := r.id,
               tripDay := d }
      else none

def remHotel (now : Int) (r : HotelRow) : Option Reminder :=
  match r.checkIn with
  | none => none
  | some d =>
      if reminderWindow now d then
        some { userId := r.userId, itemType := "hotel", itemId := r.id,
               tripDay := d }
      else none

/-- `check_reminders`: scan applications then hotels, one `send_reminder`
per eligible row per invocation. -/
def check_reminders (now : Int) (apps : List AppRow) (hotels : List HotelRow) :
    List Reminder :=
  apps.filterMap (remApp now) ++ hotels.filterMap (remHotel now)

/-! ## Pagination (bot.py 626-667) -/

def ITEMS_PER_PAGE : Nat := 5

/-- `pages = max(1, math.ceil(total / ITEMS_PER_PAGE))`. -/
def build_page_pages (total : Nat) : Nat :=
  max 1 ((total + ITEMS_PER_PAGE - 1) / ITEMS_PER_PAGE)

/-- `page = max(1, min(page, pages))`; the requested page arrives as a
python int parsed from callback data. -/
def build_page_num (page : Int) (pages : Nat) : Int :=
  max 1 (min page (pages : Int))

/-- `chunk = items[start:start + ITEMS_PER_PAGE]` with
`start = (page - 1) * ITEMS_PER_PAGE`, after clamping. -/
def build_page_chunk {α : Type} (items : List α) (page : Int) : List α :=
  let pages := build_page_pages items.length
  let p := build_page_num page pages
  (items.drop (((p - 1) * (ITEMS_PER_PAGE : Int)).toNat)).take ITEMS_PER_PAGE

/-! ## The per-session draft (`context.user_data`)

A python dict read with `.get(key, default)`; `none` models an absent key. -/

structure Draft where
  name : Option String := none
  passport : Option String := none
  route : Option String := none
  date : Option Nat := none
  time_of_day : Option String := none
  reason : Option String := none
  is_round_trip : Option Bool := none
  return_route : Option String := none
  return_date : Option Nat := none
  return_time_of_day : Option String := none
  hotel_city : Option String := none
  hotel_checkin : Option Nat := none
  hotel_checkout : Option Nat := none
  hotel_room_type : Option String := none
  deriving DecidableEq, Repr

/-- `save_application` (bot.py 279-311): computes `next_id` of the live
table, appends the row built from `user_data` with `.get` defaults, and
writes the whole table back.  Returns the updated table and the assigned id. -/
def mkAppRow (nid uid : Int) (d : Draft) (status : String) : AppRow :=
  { id := nid
  , userId := uid
  , fio := d.name.getD ""
  , route := d.route.getD ""
  , date := d.date
  , timeOfDay := d.time_of_day.getD ""
  , reason := d.reason.getD ""
  , status := status
  , returnRoute := d.return_route.getD ""
  , returnDate := d.return_date
  , isRoundTrip := d.is_round_trip.getD false }

def save_application (uid : Int) (d : Draft) (status : String)
    (apps : List AppRow) : List AppRow × Int :=
  let nid := next_id (appsToDF apps)
  (apps ++ [mkAppRow nid uid d status], nid)

def mkHotelRow (nid uid : Int) (d : Draft) (status : String) : HotelRow :=
  { id := nid
  , userId := uid
  , fio := d.name.getD ""
  , hotelCity := d.hotel_city.getD ""
  , checkIn := d.hotel_checkin
  , checkOut := d.hotel_checkout
  , roomType := d.hotel_room_type.getD ""
  , status := status }

/-- `save_hotel` (bot.py 314-342). -/
def save_hotel (uid : Int) (d : Draft) (status : String)
    (hotels : List HotelRow) : List HotelRow × Int :=
  let nid := next_id (hotelsToDF hotels)
  (hotels ++ [mkHotelRow nid uid d status], nid)

/-! ## Archive (bot.py 479-515) -/

structure ArchiveEntry where
  typ : String
  id : Int
  userId : Int
  deriving DecidableEq, Repr

/-- `archive_item("app", item_id)`: if no live row has the id, report
`False` and change nothing; otherwise append a snapshot of the first
matching row to the archive and remove every row with that id from the
live table.  Returns (success, live table, archive table). -/
def archive_item_app (item_id : Int) (apps : List AppRow)
    (archive : List ArchiveEntry) : Bool × List AppRow × List ArchiveEntry :=
  match apps.find? (fun r => r.id == item_id) with
  | none => (false, apps, archive)
  | some r =>
      (true, apps.filter (fun q => !(q.id == item_id)),
        archive ++ [{ typ := "app", id := item_id, userId := r.userId }])

/-! ## Interleavings of saves and archives (for the id-assignment claims)

`save_application` as triggered by a completed dialogue, and
`archive_item("app", ·)` as triggered by the admin's archive action,
applied to the shared tables in an arbitrary order. -/

inductive StoreOp where
  | save (uid : Int) (d : Draft)
  | archive (item_id : Int)
  deriving DecidableEq, Repr

def StoreOp.isSave : StoreOp → Bool
  | StoreOp.save _ _ => true
  | StoreOp.archive _ => false

structure StoreState where
  apps : List AppRow := []
  archive : List ArchiveEntry := []
  /-- log of ids assigned by successive saves, oldest first. -/
  assigned : List Int := []
  deriving DecidableEq, Repr

def runStoreOp (s : StoreState) : StoreOp → StoreState
  | StoreOp.save uid d =>
      let (apps, nid) := save_application uid d pendingStatus s.apps
      { s with apps := apps, assigned := s.assigned ++ [nid] }
  | StoreOp.archive item_id =>
      let (_, apps, archive) := archive_item_app item_id s.apps s.archive
      { s with apps := apps, archive := archive }

def runStore (ops : List StoreOp) : StoreState :=
  ops.foldl runStoreOp {}

/-! ## Admin command surface and the status-change callback -/

/-- `ADMIN_ID` (bot.py 36): the single static administrator identity. -/
def ADMIN_ID : Int := 7734124159

/-- The handlers' user-visible outcome, as far as the claims need it. -/
inductive Reply where
  | denied          -- the fixed "⛔ Только админ." response
  | usage           -- argument-usage help
  | notFound        -- NotFoundError message
  | ok
  | errorMsg        -- the generic error reply of `cb_change_status`
  deriving DecidableEq, Repr

/-- `cmd_set_status` (bot.py 1472-1517): admin gate first, then overwrite
the `Status` of the FIRST row carrying the id (`idx[0]`) and notify that
row's owner.  Returns the new tables, the reply, and the
(recipient, status) of the owner notification if one is attempted. -/
def cmd_set_status (caller : Int) (typ : String) (sid : Int) (status : String)
    (apps : List AppRow) (hotels : List HotelRow) :
    List AppRow × List HotelRow × Reply × Option (Int × String) :=
  if caller != ADMIN_ID then (apps, hotels, Reply.denied, none)
  else if typ == "app" then
    match apps.findIdx? (fun r => r.id == sid) with
    | none => (apps, hotels, Reply.notFound, none)
    | some i =>
        let apps := apps.modify (fun r => { r with status := status }) i
        let recip := ((apps.get? i).map (fun r => r.userId)).getD 0
        (apps, hotels, Reply.ok, some (recip, status))
  else if typ == "hotel" then
    match hotels.findIdx? (fun r => r.id == sid) with
    | none => (apps, hotels, Reply.notFound, none)
    | some i =>
        let hotels := hotels.modify (fun r => { r with status := status }) i
        let recip := ((hotels.get? i).map (fun r => r.userId)).getD 0
        (apps, hotels, Reply.ok, some (recip, status))
  else (apps, hotels, Reply.usage, none)

/-- `cb_change_status` (bot.py 1624-1659), the handler of the card
status-change buttons (`status:app:<id>:<key>`): looks the key up in
`STATUSES` (a `KeyError` lands in the catch-all `except`), then — with NO
administrator check — overwrites `Status` on EVERY row with the id
(`df.loc[df["ID"] == item_id]`) and notifies the first matching row's
owner.  The caller identity is received (the update's originating user)
but never consulted. -/
def cb_change_status (caller : Int) (item_type : String) (item_id : Int)
    (status_key : String) (apps : List AppRow) (hotels : List HotelRow) :
    List AppRow × List HotelRow × Reply × Option (Int × String) :=
  match statusOfKey status_key with
  | none => (apps, hotels, Reply.errorMsg, none)
  | some new_status =>
      if item_type == "app" then
        match apps.find? (fun r => r.id == item_id) with
        | none => (apps, hotels, Reply.ok, none)
        | some r =>
            let apps := apps.map (fun q =>
              if q.id == item_id then { q with status := new_status } else q)
            (apps, hotels, Reply.ok, some (r.userId, new_status))
      else if item_type == "hotel" then
        match hotels.find? (fun r => r.id == item_id) with
        | none => (apps, hotels, Reply.ok, none)
        | some r =>
            let hotels := hotels.map (fun q =>
              if q.id == item_id then { q with status := new_status } else q)
            (apps, hotels, Reply.ok, some (r.userId, new_status))
      else (apps, hotels, Reply.ok, none)

/-- `cmd_admin_all` (bot.py 1219-1243): gate, then render every row of both
tables; never mutates.  `none` is the denial. -/
def cmd_admin_all (caller : Int) (apps : List AppRow) (hotels : List HotelRow) :
    Option (List AppRow × List HotelRow) :=
  if caller != ADMIN_ID then none else some (apps, hotels)

/-- `cmd_admin_pending` (bot.py 1246-1276): gate, then render the rows whose
status is exactly the canonical pending label. -/
def cmd_admin_pending (caller : Int) (apps : List AppRow)
    (hotels : List HotelRow) : Option (List AppRow × List HotelRow) :=
  if caller != ADMIN_ID then none
  else some (apps.filter (fun r => r.status == pendingStatus),
             hotels.filter (fun r => r.status == pendingStatus))

/-- `cmd_admin_search` (bot.py 1322-1344): gate, then select by user id or
by FIO substring; `query.isdigit()` decides which.  The case-insensitive
`str.contains` of pandas is modelled as plain substring occurrence
(`splitOn` finds at least one split point). -/
def cmd_admin_search (caller : Int) (query : String) (apps : List AppRow) :
    Option (List AppRow) :=
  if caller != ADMIN_ID then none
  else if query.toList ≠ [] && query.toList.all Char.isDigit then
    some (apps.filter (fun r => r.userId == ((query.toNat?).getD 0 : Nat)))
  else
    some (apps.filter (fun r => (r.fio.splitOn query).length > 1))

/-- `cmd_report_user` (bot.py 1385-1403): gate, then the records rendered
into the PDF (the ReportRenderer input). -/
def cmd_report_user (caller : Int) (uid : Int) (apps : List AppRow) :
    Option (List AppRow) :=
  if caller != ADMIN_ID then none
  else some (apps.filter (fun r => r.userId == uid))

/-- `cmd_get_db` (bot.py 1569-1582): gate, then send the raw tables. -/
def cmd_get_db (caller : Int) (apps : List AppRow) (hotels : List HotelRow) :
    Option (List AppRow × List HotelRow) :=
  if caller != ADMIN_ID then none else some (apps, hotels)

/-! ## Owner-facing cancel callbacks (bot.py 1166-1213) -/

/-- `cb_cancel_app_by_id`: no ownership or admin check — the handler
receives the pressing user (`caller`) and never consults it.  Overwrites
the FIRST matching row's status with the ad-hoc string
"❌ Отклонена пользователем" and notifies the row's stored owner. -/
def cb_cancel_app_by_id (caller : Int) (sid : Int) (apps : List AppRow) :
    List AppRow × Reply × Option Int :=
  match apps.findIdx? (fun r => r.id == sid) with
  | none => (apps, Reply.notFound, none)
  | some i =>
      let apps := apps.modify
        (fun r => { r with status := "❌ Отклонена пользователем" }) i
      let owner := ((apps.get? i).map (fun r => r.userId)).getD 0
      (apps, Reply.ok, some owner)

/-- `cb_cancel_hotel_by_id`: same shape, status
"❌ Отменено пользователем". -/
def cb_cancel_hotel_by_id (caller : Int) (sid : Int) (hotels : List HotelRow) :
    List HotelRow × Reply × Option Int :=
  match hotels.findIdx? (fun r => r.id == sid) with
  | none => (hotels, Reply.notFound, none)
  | some i =>
      let hotels := hotels.modify
        (fun r => { r with status := "❌ Отменено пользователем" }) i
      let owner := ((hotels.get? i).map (fun r => r.userId)).getD 0
      (hotels, Reply.ok, some owner)

/-! ## The intake conversation (bot.py 673-1061, wiring 1780-1825)

One user's session against the `ConversationHandler` of `main()`.  The
dispatch is modelled faithfully, including its two non-obvious aspects:

* `allow_reentry=True`: the entry points (`cb_start_app`, `cb_start_hotel`
  as the `start_app` / `start_hotel` callbacks or their keyboard texts) can
  fire in ANY state — every state's message handlers use a catch-all text
  filter, so text-triggered re-entry is only reachable from `CONFIRM` /
  `HOTEL_ROOM_TYPE`, but the callback-triggered entries match no in-state
  pattern and therefore re-enter from every state;
* `cb_confirm_app`, `cb_cancel_app` and `cb_hotel_room_type` are ALSO
  registered as plain dispatcher handlers (bot.py 1820, 1824, 1825), so a
  stale inline button fires them even when the conversation is in a state
  whose handler set does not claim the callback; the conversation state is
  then left unchanged (the handler's `return END` is ignored).

The `COMMENT` state and the dormant `BROADCAST` / `TEMPLATE` / `GROUP`
states are unreachable from this conversation and are omitted. -/

inductive CState where
  | name | passport | route | dateStr | returnDate | reason | confirm
  | hotelCity | hotelDaterange | hotelRoomType | ended
  deriving DecidableEq, Repr

/-- One incoming update for this user's chat.  A text message carries the
clock (`datetime.now().date()` at handling time) and the outcomes the two
date parsers would produce on it: `pSingle` models
`parse_single_date(text)` (day, optional time-of-day word; `none` is the
raised `ValueError`) and `pRange` models `parse_date_range(text)`. -/
inductive Ev where
  | startApp (profileFio : Option String)
  | startHotel (profileFio : Option String)
  | msgText (today : Nat) (t : String) (pSingle : Option (Nat × Option String))
      (pRange : Option (Nat × Nat))
  | msgFile (fileId : String)
  | cbRouteSelect (r : String)
  | cbRouteCustom
  | cbReturnYes
  | cbReturnNo
  | cbRoomType (key : String)
  | cbConfirmApp
  | cbCancelApp
  deriving DecidableEq, Repr

structure Sess where
  st : CState := CState.ended
  d : Draft := {}
  apps : List AppRow := []
  hotels : List HotelRow := []
  /-- rows persisted by `save_application`, oldest first. -/
  savedApps : List AppRow := []
  /-- rows persisted by `save_hotel`, oldest first. -/
  savedHotels : List HotelRow := []
  deriving DecidableEq, Repr

/-- Auto-derivation of the return route in `flow_return_date`
(bot.py 914-920): recomputed from the CURRENT outbound route whenever it
splits into exactly two " - "-separated parts, otherwise left as it was. -/
def deriveReturnRoute (route : String) (old : Option String) : Option String :=
  match pySplit route " - " with
  | [a, b] => some (b ++ " - " ++ a)
  | _ => old

/-- `cb_hotel_room_type`'s `mapping.get(q.data, "Не указано")`. -/
def roomTypeOfKey (key : String) : String :=
  if key == "room_single" then "Одноместный"
  else if key == "room_double" then "Двухместный"
  else if key == "room_family" then "Семейный"
  else if key == "room_luxury" then "Бизнес-люкс"
  else "Не указано"

/-- `flow_date` (bot.py 869-889). -/
def flow_date (today : Nat) (pSingle : Option (Nat × Option String))
    (s : Sess) : Sess :=
  match pSingle with
  | none => s
  | some (dt, tod) =>
      if !is_future_or_today today dt then s
      else
        { s with
          d := { s.d with date := some dt, time_of_day := some (tod.getD "") },
          st := if s.d.is_round_trip.getD false then CState.returnDate
                else CState.reason }

/-- `flow_return_date` (bot.py 892-923).  Note: this also runs when the
shared `RETURN_DATE` state is still in its round-trip-question phase and
the user sends free text instead of tapping a button. -/
def flow_return_date (pSingle : Option (Nat × Option String))
    (s : Sess) : Sess :=
  match pSingle with
  | none => s
  | some (dt, tod) =>
      let rejected :=
        match s.d.date with
        | some dep => decide (dt ≤ dep)
        | none => false
      if rejected then s
      else
        { s with
          d := { s.d with
                   return_date := some dt,
                   return_time_of_day := some (tod.getD ""),
                   return_route := deriveReturnRoute (s.d.route.getD "")
                     s.d.return_route },
          st := CState.reason }

/-- `flow_hotel_daterange` (bot.py 1015-1039). -/
def flow_hotel_daterange (today : Nat) (pRange : Option (Nat × Nat))
    (s : Sess) : Sess :=
  match pRange with
  | none => s
  | some (checkin, checkout) =>
      if !(is_future_or_today today checkin &&
           is_future_or_today today checkout) then s
      else if checkout ≤ checkin then s
      else
        { s with
          d := { s.d with
                   hotel_checkin := some checkin,
                   hotel_checkout := some checkout },
          st := CState.hotelRoomType }

/-- `cb_confirm_app` (bot.py 953-985): persist the draft, then reset it
preserving only `name` and `passport`. -/
def confirmApp (uid : Int) (s : Sess) : Sess :=
  let nid := next_id (appsToDF s.apps)
  let row := mkAppRow nid uid s.d pendingStatus
  { s with
    apps := s.apps ++ [row],
    savedApps := s.savedApps ++ [row],
    d := { name := s.d.name, passport := s.d.passport } }

/-- `cb_hotel_room_type` (bot.py 1042-1061): record the selection and
persist the hotel booking. -/
def hotelRoomSave (uid : Int) (key : String) (s : Sess) : Sess :=
  let d := { s.d with hotel_room_type := some (roomTypeOfKey key) }
  let nid := next_id (hotelsToDF s.hotels)
  let row := mkHotelRow nid uid d pendingStatus
  { s with
    d := d,
    hotels := s.hotels ++ [row],
    savedHotels := s.savedHotels ++ [row] }

/-- Dispatch of a text message by the current conversation state
(`flow_name`, `flow_passport`'s text branch, `flow_route`, `flow_date`,
`flow_return_date`, `flow_reason`, `flow_hotel_city`,
`flow_hotel_daterange`); in `CONFIRM`, `HOTEL_ROOM_TYPE` and outside a
conversation a text message only reaches `handler_forward_any`, which
changes nothing for a non-forwarding user. -/
def stepText (today : Nat) (t : String)
    (pSingle : Option (Nat × Option String)) (pRange : Option (Nat × Nat))
    (s : Sess) : Sess :=
  match s.st with
  | CState.name =>
      let t := pyStrip t
      if t == "" then s
      else { s with d := { s.d with name := some t }, st := CState.passport }
  | CState.passport =>
      if (pyWords t).length ≥ 2 then
        { s with d := { s.d with name := some (pyStrip t) } }
      else s
  | CState.route =>
      { s with
        d := { s.d with route := some (pyStrip t) },
        st := CState.returnDate }
  | CState.dateStr => flow_date today pSingle s
  | CState.returnDate => flow_return_date pSingle s
  | CState.reason =>
      { s with
        d := { s.d with reason := some (pyStrip t) },
        st := CState.confirm }
  | CState.hotelCity =>
      let t := pyStrip t
      if (pyWords t).length ≥ 2 && !(t.toList.contains '@') then
        { s with d := { s.d with name := some t } }
      else
        { s with
          d := { s.d with hotel_city := some t },
          st := CState.hotelDaterange }
  | CState.hotelDaterange => flow_hotel_daterange today pRange s
  | CState.confirm => s
  | CState.hotelRoomType => s
  | CState.ended => s

/-- One update against the dispatcher. -/
def step (uid : Int) (s : Sess) : Ev → Sess
  | Ev.startApp profileFio =>
      -- cb_start_app (bot.py 687-716), reachable from every state.
      match profileFio with
      | some fio =>
          { s with d := { s.d with name := some fio }, st := CState.passport }
      | none => { s with st := CState.name }
  | Ev.startHotel profileFio =>
      -- cb_start_hotel (bot.py 719-741).
      match profileFio with
      | some fio =>
          { s with d := { s.d with name := some fio }, st := CState.hotelCity }
      | none => { s with st := CState.name }
  | Ev.msgText today t pSingle pRange => stepText today t pSingle pRange s
  | Ev.msgFile fileId =>
      -- flow_passport's photo/document branch (bot.py 755-801); photo and
      -- document messages match no other state's filters.
      match s.st with
      | CState.passport =>
          { s with
            d := { s.d with passport := some fileId },
            st := CState.route }
      | _ => s
  | Ev.cbRouteSelect r =>
      -- handle_route_selection (bot.py 814-836), pattern only in ROUTE.
      match s.st with
      | CState.route =>
          { s with
            d := { s.d with route := some r },
            st := CState.returnDate }
      | _ => s
  | Ev.cbRouteCustom =>
      match s.st with
      | CState.route => s     -- prompt for free text, stay in ROUTE
      | _ => s
  | Ev.cbReturnYes =>
      -- handle_return_ticket (bot.py 855-866), pattern only in RETURN_DATE.
      match s.st with
      | CState.returnDate =>
          { s with
            d := { s.d with is_round_trip := some true },
            st := CState.dateStr }
      | _ => s
  | Ev.cbReturnNo =>
      match s.st with
      | CState.returnDate =>
          { s with
            d := { s.d with is_round_trip := some false },
            st := CState.dateStr }
      | _ => s
  | Ev.cbRoomType key =>
      -- in HOTEL_ROOM_TYPE via the conversation (ends it), elsewhere via
      -- the global handler of bot.py 1820 (state unchanged).
      let s' := hotelRoomSave uid key s
      { s' with st := if s.st = CState.hotelRoomType then CState.ended
                      else s.st }
  | Ev.cbConfirmApp =>
      -- in CONFIRM via the conversation (ends it), elsewhere via the
      -- global handler of bot.py 1824 (state unchanged).
      let s' := confirmApp uid s
      { s' with st := if s.st = CState.confirm then CState.ended else s.st }
  | Ev.cbCancelApp =>
      -- cb_cancel_app (bot.py 988-992) ends the conversation WITHOUT
      -- clearing the draft; the global copy (bot.py 1825) only replies.
      if s.st = CState.confirm then { s with st := CState.ended } else s

def initSess (apps : List AppRow) (hotels : List HotelRow) : Sess :=
  { st := CState.ended, d := {}, apps := apps, hotels := hotels,
    savedApps := [], savedHotels := [] }

def run (uid : Int) (s : Sess) (evs : List Ev) : Sess :=
  evs.foldl (step uid) s

/-! ## Helper lemmas -/

/-- `[1, 2, ..., n]`: the ids the store hands out in an insert-only life. -/
def idRange (n : Nat) : List Int :=
  (List.range n).map (fun (i : Nat) => (i : Int) + 1)

lemma foldl_max_le_self (l : List Int) (a : Int) : a ≤ l.foldl max a := by
  induction l generalizing a with
  | nil => exact le_refl a
  | cons b t ih => exact le_trans (le_max_left a b) (ih (max a b))

lemma foldl_max_le_of_mem {l : List Int} {x : Int} (hx : x ∈ l) (a : Int) :
    x ≤ l.foldl max a := by
  induction l generalizing a with
  | nil => cases hx
  | cons b t ih =>
      rcases List.mem_cons.mp hx with h | h
      · subst h
        exact le_trans (le_max_right a x) (foldl_max_le_self t (max a x))
      · exact ih h (max a b)

lemma foldl_max_mem (l : List Int) (a : Int) :
    l.foldl max a = a ∨ l.foldl max a ∈ l := by
  induction l generalizing a with
  | nil => exact Or.inl rfl
  | cons b t ih =>
      rcases ih (max a b) with h | h
      · rcases max_choice a b with hm | hm
        · exact Or.inl (by rw [List.foldl_cons, h, hm])
        · refine Or.inr ?_
          rw [List.foldl_cons, h, hm]
          exact List.mem_cons_self b t
      · exact Or.inr (List.mem_cons_of_mem b (by rw [List.foldl_cons]; exact h))

lemma le_listMax_of_mem {l : List Int} {x : Int} (hx : x ∈ l) :
    x ≤ listMax l := by
  cases l with
  | nil => cases hx
  | cons a t =>
      show x ≤ t.foldl max a
      rcases List.mem_cons.mp hx with h | h
      · subst h; exact foldl_max_le_self t x
      · exact foldl_max_le_of_mem h a

lemma listMax_mem {l : List Int} (h : l ≠ []) : listMax l ∈ l := by
  cases l with
  | nil => exact absurd rfl h
  | cons a t =>
      show t.foldl max a ∈ a :: t
      rcases foldl_max_mem t a with h' | h'
      · rw [h']; exact List.mem_cons_self a t
      · exact List.mem_cons_of_mem a h'

lemma mem_idRange {n : Nat} {x : Int} :
    x ∈ idRange n ↔ 1 ≤ x ∧ x ≤ (n : Int) := by
  simp only [idRange, List.mem_map, List.mem_range]
  constructor
  · intro hx
    obtain ⟨i, hi, hx⟩ := hx
    have hx' : (i : Int) + 1 = x := hx
    omega
  · intro hx
    obtain ⟨h1, h2⟩ := hx
    refine ⟨(x - 1).toNat, ?_, ?_⟩
    · omega
    · show ((x - 1).toNat : Int) + 1 = x
      omega

lemma idRange_succ (n : Nat) :
    idRange (n + 1) = idRange n ++ [(n : Int) + 1] := by
  simp [idRange, List.range_succ]

lemma listMax_idRange {n : Nat} (h : n ≠ 0) : listMax (idRange n) = n := by
  apply le_antisymm
  · have hne : idRange n ≠ [] := by
      cases n with
      | zero => exact absurd rfl h
      | succ m => rw [idRange_succ]; simp
    exact (mem_idRange.mp (listMax_mem hne)).2
  · exact le_listMax_of_mem (mem_idRange.mpr ⟨by omega, le_refl _⟩)

lemma colInts_map_intVal (l : List Int) :
    colInts (l.map Cell.intVal) = some l := by
  induction l with
  | nil => rfl
  | cons a t ih => simp [colInts, ih]

lemma next_id_intCol {l : List Int} (h : l ≠ []) :
    next_id ⟨true, l.map Cell.intVal⟩ = listMax l + 1 := by
  have h1 : (l.map Cell.intVal).isEmpty = false := by
    cases l with
    | nil => exact absurd rfl h
    | cons a t => rfl
  rw [next_id]
  simp [h1, colInts_map_intVal]

lemma appsToDF_eq (apps : List AppRow) :
    appsToDF apps = ⟨true, (apps.map (fun r => r.id)).map Cell.intVal⟩ := by
  rw [appsToDF, List.map_map]
  rfl

/-- `next_id` on an applications table whose id column is `[1..n]`. -/
lemma next_id_idRange {apps : List AppRow} {n : Nat}
    (h : apps.map (fun r => r.id) = idRange n) :
    next_id (appsToDF apps) = (n : Int) + 1 := by
  rw [appsToDF_eq, h]
  cases n with
  | zero => simp [next_id, idRange]
  | succ m =>
      rw [next_id_intCol (by rw [idRange_succ]; simp)]
      rw [listMax_idRange (Nat.succ_ne_zero m)]

/-- All-save runs of the store: the live id column is exactly `[1..n]` and
the assignment log repeats it. -/
lemma runStore_all_saves (ops : List StoreOp)
    (h : ∀ op ∈ ops, op.isSave = true) :
    (runStore ops).apps.map (fun r => r.id) = idRange ops.length ∧
    (runStore ops).assigned = idRange ops.length := by
  induction ops using List.reverseRecOn with
  | nil => constructor <;> rfl
  | append_singleton ops op ih =>
      obtain ⟨u, d, rfl⟩ : ∃ u d, op = StoreOp.save u d := by
        have := h op (by simp)
        cases op with
        | save u d => exact ⟨u, d, rfl⟩
        | archive i => simp [StoreOp.isSave] at this
      have ih' := ih (fun o ho => h o (by simp [ho]))
      have hrun : runStore (ops ++ [StoreOp.save u d]) =
          runStoreOp (runStore ops) (StoreOp.save u d) := by
        simp [runStore, List.foldl_append]
      rw [hrun]
      have hnid : next_id (appsToDF (runStore ops).apps) =
          (ops.length : Int) + 1 := next_id_idRange ih'.1
      constructor
      · simp only [runStoreOp, save_application, hnid]
        rw [List.map_append, ih'.1]
        simp [mkAppRow, idRange_succ]
      · simp only [runStoreOp, save_application, hnid]
        rw [ih'.2]
        simp [idRange_succ]

/-! ## Claim C2: id assignment across interleaved archives -/

lemma colInts_length {l : List Cell} {ns : List Int}
    (h : colInts l = some ns) : ns.length = l.length := by
  induction l generalizing ns with
  | nil => cases h; rfl
  | cons c t ih =>
      cases c with
      | intVal m =>
          rw [colInts] at h
          cases hrec : colInts t with
          | none => rw [hrec] at h; cases h
          | some ms => rw [hrec] at h; cases h; simp [ih hrec]
      | nonInt => cases h

/-- Claim C2 (amended): in the absence of archive operations, the ids
assigned to successively saved Ticket Applications are strictly increasing
and pairwise distinct; an archive that removes the current maximum id makes
the next save reuse that id (see the counterexample), so the claim's
"including across interleaved archive operations" does not hold. -/
theorem c2_ids_monotone_without_archive (ops : List StoreOp)
    (h : ∀ op ∈ ops, op.isSave = true) :
    (runStore ops).assigned.Pairwise (· < ·) ∧
    (runStore ops).assigned.Nodup := by
  obtain ⟨-, hassigned⟩ := runStore_all_saves ops h
  rw [hassigned]
  have hpw : (idRange ops.length).Pairwise (· < ·) := by
    refine List.Pairwise.map _ ?_ (List.pairwise_lt_range ops.length)
    intro a b hab
    omega
  exact ⟨hpw, hpw.imp ne_of_lt⟩

/-- Claim C2 counterexample: save, save, archive the current maximum id 2,
save again — the assigned ids are 1, 2, 2: neither unique nor monotonically
increasing over the life of the table. -/
theorem c2_counterexample :
    (runStore [StoreOp.save 7 {}, StoreOp.save 7 {},
      StoreOp.archive 2, StoreOp.save 7 {}]).assigned = [1, 2, 2] ∧
    ¬ (runStore [StoreOp.save 7 {}, StoreOp.save 7 {},
      StoreOp.archive 2, StoreOp.save 7 {}]).assigned.Nodup ∧
    ¬ (runStore [StoreOp.save 7 {}, StoreOp.save 7 {},
      StoreOp.archive 2, StoreOp.save 7 {}]).assigned.Pairwise (· < ·) := by
  decide

/-- Witness for `c2_ids_monotone_without_archive` at a two-save run. -/
theorem c2_witness :
    (∀ op ∈ [StoreOp.save 5 ({} : Draft), StoreOp.save 6 {}], op.isSave = true) ∧
    ((runStore [StoreOp.save 5 {}, StoreOp.save 6 {}]).assigned.Pairwise (· < ·) ∧
     (runStore [StoreOp.save 5 {}, StoreOp.save 6 {}]).assigned.Nodup) :=
  ⟨by decide, c2_ids_monotone_without_archive _ (by decide)⟩

/-! ## Claim C3: `next_id` -/

/-- Claim C3 (amended): `next_id` returns 1 on an empty table or one
without an id column; on a table whose id cells all parse as integers it
returns the maximum existing id plus one; on any computation failure it
falls back to the ROW COUNT PLUS ONE (the claim said row count); and after
N successful saves into an initially empty table with no deletions it
returns N + 1. -/
theorem c3_next_id_spec :
    (∀ df : DFrame, df.idCol = [] ∨ df.hasIdCol = false → next_id df = 1) ∧
    (∀ df : DFrame, ∀ ns : List Int, df.hasIdCol = true → df.idCol ≠ [] →
      colInts df.idCol = some ns →
      (next_id df - 1) ∈ ns ∧ ∀ x ∈ ns, x ≤ next_id df - 1) ∧
    (∀ df : DFrame, df.hasIdCol = true → df.idCol ≠ [] →
      colInts df.idCol = none →
      next_id df = (df.idCol.length : Int) + 1) ∧
    (∀ ops : List StoreOp, (∀ op ∈ ops, op.isSave = true) →
      next_id (appsToDF (runStore ops).apps) = (ops.length : Int) + 1) := by
  refine ⟨?_, ?_, ?_, ?_⟩
  · intro df h
    rcases h with h | h <;> simp [next_id, h]
  · intro df ns hcolX hne hints
    have hns : ns ≠ [] := by
      intro hnil
      subst hnil
      have hlen : (0 : Nat) = df.idCol.length := colInts_length hints
      exact hne (List.length_eq_zero.mp hlen.symm)
    have hem : df.idCol.isEmpty = false := List.isEmpty_eq_false.mpr hne
    have hval : next_id df = listMax ns + 1 := by
      rw [next_id, hem, hcolX, hints]
      simp
    rw [hval]
    constructor
    · simpa using listMax_mem hns
    · intro x hx
      simpa using le_listMax_of_mem hx
  · intro df hcolX hne hnone
    have hem : df.idCol.isEmpty = false := List.isEmpty_eq_false.mpr hne
    rw [next_id, hem, hcolX, hnone]
    simp
  · intro ops h
    exact next_id_idRange (runStore_all_saves ops h).1

/-- Claim C3 counterexample: a one-row table whose id cell is non-numeric —
`next_id` returns 2 (row count + 1), not the row count 1 the claim states
for the fallback path. -/
theorem c3_counterexample :
    next_id ⟨true, [Cell.nonInt]⟩ = 2 ∧
    (DFrame.mk true [Cell.nonInt]).idCol.length = 1 := by
  decide

/-- Witness for `c3_next_id_spec`: its fourth part at a three-save run. -/
theorem c3_witness :
    (∀ op ∈ [StoreOp.save 5 ({} : Draft), StoreOp.save 6 {}, StoreOp.save 7 {}],
      op.isSave = true) ∧
    next_id (appsToDF (runStore
      [StoreOp.save 5 {}, StoreOp.save 6 {}, StoreOp.save 7 {}]).apps) = 4 :=
  ⟨by decide, c3_next_id_spec.2.2.2 _ (by decide)⟩

/-! ## Claim C7: archive behaviour -/

/-- Claim C7 (amended): for an id present exactly once in the live Ticket
Application table, and PROVIDED the Archive table holds no prior entry of
type "app" with that id (id reuse after an earlier archive can violate
this — see the counterexample), a successful `archive("app", id)` removes
the id from the live table and leaves exactly one matching archive entry;
a second call on the same id reports not-found and changes neither table
(this last part holds unconditionally). -/
theorem c7_archive_spec (i : Int) (apps : List AppRow)
    (archive : List ArchiveEntry)
    (h1 : apps.countP (fun r => r.id == i) = 1)
    (h2 : archive.countP (fun e => e.typ == "app" && e.id == i) = 0) :
    (archive_item_app i apps archive).1 = true ∧
    (archive_item_app i apps archive).2.1.countP (fun r => r.id == i) = 0 ∧
    (archive_item_app i apps archive).2.2.countP
      (fun e => e.typ == "app" && e.id == i) = 1 ∧
    archive_item_app i (archive_item_app i apps archive).2.1
        (archive_item_app i apps archive).2.2 =
      (false, (archive_item_app i apps archive).2.1,
        (archive_item_app i apps archive).2.2) := by
  obtain ⟨r, hr⟩ : ∃ r, apps.find? (fun q => q.id == i) = some r := by
    have hpos : 0 < apps.countP (fun r => r.id == i) := by omega
    have hsome := List.find?_isSome.mpr (List.countP_pos_iff.mp hpos)
    cases hfind : apps.find? (fun q => q.id == i) with
    | none => rw [hfind] at hsome; cases hsome
    | some r => exact ⟨r, rfl⟩
  have hres : archive_item_app i apps archive =
      (true, apps.filter (fun q => !(q.id == i)),
        archive ++ [{ typ := "app", id := i, userId := r.userId }]) := by
    rw [archive_item_app, hr]
  have hlive : (apps.filter (fun q => !(q.id == i))).countP
      (fun r => r.id == i) = 0 := by
    rw [List.countP_eq_zero]
    intro a ha
    have := (List.mem_filter.mp ha).2
    simp at this
    simp [this]
  have hfind2 : (apps.filter (fun q => !(q.id == i))).find?
      (fun q => q.id == i) = none := by
    rw [List.find?_eq_none]
    intro a ha
    have := (List.mem_filter.mp ha).2
    simp at this
    simp [this]
  refine ⟨by rw [hres], by rw [hres]; exact hlive, ?_, ?_⟩
  · rw [hres]
    simp only [List.countP_append, h2]
    simp
  · rw [hres]
    show archive_item_app i (apps.filter (fun q => !(q.id == i))) _ = _
    rw [archive_item_app, hfind2]

/-- Claim C7 counterexample: save (id 1), archive it, save again (id 1 is
reused), archive id 1 once more — the second archive succeeds from a state
where id 1 is present exactly once in the live table, yet afterwards the
Archive table holds TWO entries of type "app" with id 1, not exactly one. -/
theorem c7_counterexample :
    (runStore [StoreOp.save 7 {}, StoreOp.archive 1,
      StoreOp.save 7 {}]).apps.countP (fun r => r.id == 1) = 1 ∧
    (archive_item_app 1
      (runStore [StoreOp.save 7 {}, StoreOp.archive 1, StoreOp.save 7 {}]).apps
      (runStore [StoreOp.save 7 {}, StoreOp.archive 1,
        StoreOp.save 7 {}]).archive).1 = true ∧
    (archive_item_app 1
      (runStore [StoreOp.save 7 {}, StoreOp.archive 1, StoreOp.save 7 {}]).apps
      (runStore [StoreOp.save 7 {}, StoreOp.archive 1,
        StoreOp.save 7 {}]).archive).2.2.countP
      (fun e => e.typ == "app" && e.id == 1) = 2 := by
  decide

/-- Sample rows for concrete instantiations. -/
def sampleApp : AppRow :=
  { id := 3, userId := 55, fio := "Иванова Мария"
  , route := "Самарканд - Ташкент", date := some 100, timeOfDay := "утром"
  , reason := "работа", status := pendingStatus, returnRoute := ""
  , returnDate := none, isRoundTrip := false }

/-- Witness for `c7_archive_spec` on a one-row live table and an empty
archive. -/
theorem c7_witness :
    [sampleApp].countP (fun r => r.id == 3) = 1 ∧
    ([] : List ArchiveEntry).countP
      (fun e => e.typ == "app" && e.id == 3) = 0 ∧
    ((archive_item_app 3 [sampleApp] []).1 = true ∧
     (archive_item_app 3 [sampleApp] []).2.1.countP (fun r => r.id == 3) = 0 ∧
     (archive_item_app 3 [sampleApp] []).2.2.countP
       (fun e => e.typ == "app" && e.id == 3) = 1 ∧
     archive_item_app 3 (archive_item_app 3 [sampleApp] []).2.1
         (archive_item_app 3 [sampleApp] []).2.2 =
       (false, (archive_item_app 3 [sampleApp] []).2.1,
         (archive_item_app 3 [sampleApp] []).2.2)) :=
  ⟨by decide, by decide, c7_archive_spec 3 [sampleApp] [] (by decide) (by decide)⟩

/-! ## Claim C4: rendering of non-canonical statuses -/

/-- Claim C4 (amended): a stored status string that exactly matches none of
the eight canonical labels falls through the reverse lookup to the key
"pending", so card rendering and the page summary display the CANONICAL
PENDING marker 🟡 — one of the eight canonical color markers — and never
the neutral default ⚪ (that default is unreachable: every fallback key is
in `STATUS_COLORS`). -/
theorem c4_noncanonical_status_marker (s : String)
    (h : s ∉ canonicalStatusValues) :
    statusColor s = "🟡" ∧
    "🟡" ∈ STATUS_COLORS.map (fun kv => kv.2) ∧
    statusColor s ≠ "⚪" := by
  have hnone : STATUSES.find? (fun kv => kv.2 == s) = none := by
    rw [List.find?_eq_none]
    intro kv hkv hbeq
    rw [beq_iff_eq] at hbeq
    exact h (hbeq ▸ List.mem_map_of_mem (fun kv => kv.2) hkv)
  refine ⟨?_, by decide, ?_⟩
  · rw [statusColor, hnone]
    decide
  · rw [statusColor, hnone]
    decide

/-- Claim C4 counterexample: the non-canonical status "отложено" renders
with the pending marker 🟡, not the default neutral marker ⚪ the claim
promises. -/
theorem c4_counterexample :
    "отложено" ∉ canonicalStatusValues ∧
    statusColor "отложено" ≠ "⚪" ∧
    statusColor "отложено" = "🟡" := by
  decide

/-- Witness for `c4_noncanonical_status_marker` at a concrete free-form
status string. -/
theorem c4_witness :
    "❌ Отклонена пользователем" ∉ canonicalStatusValues ∧
    (statusColor "❌ Отклонена пользователем" = "🟡" ∧
     "🟡" ∈ STATUS_COLORS.map (fun kv => kv.2) ∧
     statusColor "❌ Отклонена пользователем" ≠ "⚪") :=
  ⟨by decide, c4_noncanonical_status_marker _ (by decide)⟩

/-! ## Claim C5: administrator gating -/

/-- Claim C5 (amended): the command-surface operations (list-all,
list-pending, search, set-status, reports, raw export) deny every caller
other than the single static administrator and change no stored table; the
card status-change callback `cb_change_status`, however, carries NO
administrator check — its behaviour is identical for every caller (see the
counterexample for a non-administrator mutation it permits). -/
theorem c5_admin_gates (caller : Int) (h : caller ≠ ADMIN_ID) :
    (∀ typ sid status apps hotels,
      cmd_set_status caller typ sid status apps hotels =
        (apps, hotels, Reply.denied, none)) ∧
    (∀ apps hotels, cmd_admin_all caller apps hotels = none) ∧
    (∀ apps hotels, cmd_admin_pending caller apps hotels = none) ∧
    (∀ q apps, cmd_admin_search caller q apps = none) ∧
    (∀ u apps, cmd_report_user caller u apps = none) ∧
    (∀ apps hotels, cmd_get_db caller apps hotels = none) ∧
    (∀ c2 item_type item_id key apps hotels,
      cb_change_status caller item_type item_id key apps hotels =
        cb_change_status c2 item_type item_id key apps hotels) := by
  have hb : (caller != ADMIN_ID) = true := by simpa [bne_iff_ne] using h
  refine ⟨?_, ?_, ?_, ?_, ?_, ?_, ?_⟩
  · intro typ sid status apps hotels
    simp [cmd_set_status, hb]
  · intro apps hotels
    simp [cmd_admin_all, hb]
  · intro apps hotels
    simp [cmd_admin_pending, hb]
  · intro q apps
    simp [cmd_admin_search, hb]
  · intro u apps
    simp [cmd_report_user, hb]
  · intro apps hotels
    simp [cmd_get_db, hb]
  · intro c2 item_type item_id key apps hotels
    rfl

/-- Claim C5 counterexample: caller 42 is not the administrator, yet the
card status-change callback overwrites the stored status (the claim says a
non-administrator caller causes no stored-table change). -/
theorem c5_counterexample :
    (42 : Int) ≠ ADMIN_ID ∧
    (cb_change_status 42 "app" 3 "approved" [sampleApp] []).1 ≠ [sampleApp] ∧
    (cb_change_status 42 "app" 3 "approved" [sampleApp] []).1 =
      [{ sampleApp with status := "✅ Одобрено" }] ∧
    (cb_change_status 42 "app" 3 "approved" [sampleApp] []).2.2.2 =
      some (55, "✅ Одобрено") := by
  decide

/-- Witness for `c5_admin_gates` at caller 99. -/
theorem c5_witness :
    (99 : Int) ≠ ADMIN_ID ∧
    cmd_set_status 99 "app" 3 "подтверждено" [sampleApp] [] =
      ([sampleApp], [], Reply.denied, none) ∧
    cmd_admin_all 99 [sampleApp] [] = none :=
  ⟨by decide,
   (c5_admin_gates 99 (by decide)).1 "app" 3 "подтверждено" [sampleApp] [],
   (c5_admin_gates 99 (by decide)).2.1 [sampleApp] []⟩

/-! ## Claim C6: pagination -/

/-- Claim C6 (confirmed): `build_page` uses page size 5; the page count is
the ceiling of total/5 with minimum 1 (characterised by the inequalities
below); the requested page is clamped into [1, pageCount] and honoured when
already in range; and the chunk shown on clamped page p consists of exactly
the records at zero-based positions (p-1)*5 .. min(p*5, total)-1. -/
theorem c6_build_page_spec {α : Type} (items : List α) (page : Int) :
    (1 ≤ build_page_pages items.length ∧
     items.length ≤ 5 * build_page_pages items.length ∧
     (1 < build_page_pages items.length →
       5 * (build_page_pages items.length - 1) < items.length)) ∧
    (1 ≤ build_page_num page (build_page_pages items.length) ∧
     build_page_num page (build_page_pages items.length) ≤
       (build_page_pages items.length : Int) ∧
     (1 ≤ page → page ≤ (build_page_pages items.length : Int) →
       build_page_num page (build_page_pages items.length) = page)) ∧
    (build_page_chunk items page).length =
      min 5 (items.length -
        ((build_page_num page (build_page_pages items.length)).toNat - 1) * 5) ∧
    (∀ i : Nat, i < 5 →
      (build_page_chunk items page)[i]? =
        items[((build_page_num page
          (build_page_pages items.length)).toNat - 1) * 5 + i]?) := by
  have hstart : ((build_page_num page (build_page_pages items.length) - 1) *
      (ITEMS_PER_PAGE : Int)).toNat =
      ((build_page_num page (build_page_pages items.length)).toNat - 1) * 5 := by
    have h1 : 1 ≤ build_page_num page (build_page_pages items.length) := by
      simp only [build_page_num]
      omega
    simp only [ITEMS_PER_PAGE]
    omega
  refine ⟨⟨?_, ?_, ?_⟩, ⟨?_, ?_, ?_⟩, ?_, ?_⟩
  · simp only [build_page_pages, ITEMS_PER_PAGE]
    omega
  · simp only [build_page_pages, ITEMS_PER_PAGE]
    omega
  · simp only [build_page_pages, ITEMS_PER_PAGE]
    omega
  · simp only [build_page_num]
    omega
  · simp only [build_page_num, build_page_pages, ITEMS_PER_PAGE]
    omega
  · intro ha hb
    simp only [build_page_num]
    omega
  · simp only [build_page_chunk, List.length_take, List.length_drop, hstart]
    rfl
  · intro i hi
    have hi' : i < ITEMS_PER_PAGE := hi
    show ((items.drop _).take ITEMS_PER_PAGE)[i]? = _
    rw [List.getElem?_take, if_pos hi', List.getElem?_drop, hstart]

/-- Witness for `c6_build_page_spec`: 12 records give 3 pages; page 1 holds
records 1-5, page 3 only records 11-12; requested pages 0 and 99 clamp to
1 and 3. -/
theorem c6_witness :
    build_page_pages 12 = 3 ∧
    build_page_num 0 3 = 1 ∧
    build_page_num 99 3 = 3 ∧
    build_page_chunk (List.range 12) 1 = [0, 1, 2, 3, 4] ∧
    build_page_chunk (List.range 12) 0 = [0, 1, 2, 3, 4] ∧
    build_page_chunk (List.range 12) 3 = [10, 11] ∧
    build_page_chunk (List.range 12) 99 = [10, 11] ∧
    (∀ i : Nat, i < 5 →
      (build_page_chunk (List.range 12) 99)[i]? =
        (List.range 12)[((build_page_num 99
          (build_page_pages (List.range 12).length)).toNat - 1) * 5 + i]?) :=
  ⟨by decide, by decide, by decide, by decide, by decide, by decide, by decide,
   (c6_build_page_spec (List.range 12) 99).2.2.2⟩

/-! ## Claim C10: the owner-facing cancel callbacks ignore the caller -/

/-- Claim C10 (confirmed): the cancel-this-record callbacks never consult
the pressing user — for any two caller identities the store mutation and
the notification are identical; when the id is found (first matching row at
index i) that row's status is overwritten with the ad-hoc user-cancelled
string, every other row is untouched, and the notification goes to the
row's STORED owner, not to the caller. -/
theorem c10_cancel_ignores_caller :
    (∀ c1 c2 sid apps,
      cb_cancel_app_by_id c1 sid apps = cb_cancel_app_by_id c2 sid apps) ∧
    (∀ c1 c2 sid hotels,
      cb_cancel_hotel_by_id c1 sid hotels = cb_cancel_hotel_by_id c2 sid hotels) ∧
    (∀ caller sid apps (i : Nat) (r : AppRow),
      apps.findIdx? (fun q => q.id == sid) = some i →
      apps[i]? = some r →
      (cb_cancel_app_by_id caller sid apps).1[i]? =
        some { r with status := "❌ Отклонена пользователем" } ∧
      (∀ j : Nat, j ≠ i →
        (cb_cancel_app_by_id caller sid apps).1[j]? = apps[j]?) ∧
      (cb_cancel_app_by_id caller sid apps).2.2 = some r.userId ∧
      (cb_cancel_app_by_id caller sid apps).2.1 = Reply.ok) ∧
    (∀ caller sid hotels (i : Nat) (r : HotelRow),
      hotels.findIdx? (fun q => q.id == sid) = some i →
      hotels[i]? = some r →
      (cb_cancel_hotel_by_id caller sid hotels).1[i]? =
        some { r with status := "❌ Отменено пользователем" } ∧
      (∀ j : Nat, j ≠ i →
        (cb_cancel_hotel_by_id caller sid hotels).1[j]? = hotels[j]?) ∧
      (cb_cancel_hotel_by_id caller sid hotels).2.2 = some r.userId ∧
      (cb_cancel_hotel_by_id caller sid hotels).2.1 = Reply.ok) := by
  refine ⟨fun c1 c2 sid apps => rfl, fun c1 c2 sid hotels => rfl, ?_, ?_⟩
  · intro caller sid apps i r hfind hget
    have hres : cb_cancel_app_by_id caller sid apps =
        (apps.modify (fun q => { q with status := "❌ Отклонена пользователем" }) i,
         Reply.ok,
         some ((((apps.modify (fun q =>
           { q with status := "❌ Отклонена пользователем" }) i).get? i).map
             (fun q => q.userId)).getD 0)) := by
      rw [cb_cancel_app_by_id, hfind]
    have hmod : (apps.modify (fun q =>
        { q with status := "❌ Отклонена пользователем" }) i)[i]? =
        some { r with status := "❌ Отклонена пользователем" } := by
      rw [List.getElem?_modify, hget]
      simp
    refine ⟨by rw [hres]; exact hmod, ?_, ?_, by rw [hres]⟩
    · intro j hj
      rw [hres]
      rw [List.getElem?_modify]
      simp [Ne.symm hj]
    · rw [hres]
      simp only [List.get?_eq_getElem?, hmod]
      rfl
  · intro caller sid hotels i r hfind hget
    have hres : cb_cancel_hotel_by_id caller sid hotels =
        (hotels.modify (fun q => { q with status := "❌ Отменено пользователем" }) i,
         Reply.ok,
         some ((((hotels.modify (fun q =>
           { q with status := "❌ Отменено пользователем" }) i).get? i).map
             (fun q => q.userId)).getD 0)) := by
      rw [cb_cancel_hotel_by_id, hfind]
    have hmod : (hotels.modify (fun q =>
        { q with status := "❌ Отменено пользователем" }) i)[i]? =
        some { r with status := "❌ Отменено пользователем" } := by
      rw [List.getElem?_modify, hget]
      simp
    refine ⟨by rw [hres]; exact hmod, ?_, ?_, by rw [hres]⟩
    · intro j hj
      rw [hres]
      rw [List.getElem?_modify]
      simp [Ne.symm hj]
    · rw [hres]
      simp only [List.get?_eq_getElem?, hmod]
      rfl

/-- Witness for `c10_cancel_ignores_caller`: its application part at a
one-row table, for caller 42 (who is not the owner 55). -/
theorem c10_witness :
    [sampleApp].findIdx? (fun q => q.id == 3) = some 0 ∧
    [sampleApp][0]? = some sampleApp ∧
    ((cb_cancel_app_by_id 42 3 [sampleApp]).1[0]? =
       some { sampleApp with status := "❌ Отклонена пользователем" } ∧
     (∀ j : Nat, j ≠ 0 →
       (cb_cancel_app_by_id 42 3 [sampleApp]).1[j]? = [sampleApp][j]?) ∧
     (cb_cancel_app_by_id 42 3 [sampleApp]).2.2 = some sampleApp.userId ∧
     (cb_cancel_app_by_id 42 3 [sampleApp]).2.1 = Reply.ok) :=
  ⟨by decide, by decide,
   c10_cancel_ignores_caller.2.2.1 42 3 [sampleApp] 0 sampleApp
     (by decide) (by decide)⟩

/-! ## Claim C9: the reminder window -/

lemma remApp_fields {now : Int} {r : AppRow} {m : Reminder}
    (h : remApp now r = some m) :
    m.userId = r.userId ∧ m.itemType = "app" ∧ m.itemId = r.id := by
  unfold remApp at h
  split at h
  · cases h
  · split at h
    · cases h
      exact ⟨rfl, rfl, rfl⟩
    · cases h

lemma remHotel_fields {now : Int} {r : HotelRow} {m : Reminder}
    (h : remHotel now r = some m) :
    m.userId = r.userId ∧ m.itemType = "hotel" ∧ m.itemId = r.id := by
  unfold remHotel at h
  split at h
  · cases h
  · split at h
    · cases h
      exact ⟨rfl, rfl, rfl⟩
    · cases h

lemma filter_remApp_nil {now : Int} {l : List AppRow} {i : Int}
    (h : ∀ q ∈ l, q.id ≠ i) :
    (l.filterMap (remApp now)).filter
      (fun m => m.itemType == "app" && m.itemId == i) = [] := by
  induction l with
  | nil => rfl
  | cons q t ih =>
      have hq := h q (List.mem_cons_self q t)
      have ht := ih (fun a ha => h a (List.mem_cons_of_mem q ha))
      rw [List.filterMap_cons]
      cases hr : remApp now q with
      | none => exact ht
      | some m =>
          rw [List.filter_cons]
          have hf := remApp_fields hr
          have hfalse : (m.itemType == "app" && m.itemId == i) = false := by
            simp only [Bool.and_eq_false_iff, beq_eq_false_iff_ne]
            exact Or.inr (hf.2.2 ▸ hq)
          rw [hfalse]
          simpa using ht

lemma filter_remHotel_app_nil {now : Int} {l : List HotelRow} {i : Int} :
    (l.filterMap (remHotel now)).filter
      (fun m => m.itemType == "app" && m.itemId == i) = [] := by
  induction l with
  | nil => rfl
  | cons q t ih =>
      rw [List.filterMap_cons]
      cases hr : remHotel now q with
      | none => exact ih
      | some m =>
          rw [List.filter_cons]
          have hf := remHotel_fields hr
          have hfalse : (m.itemType == "app" && m.itemId == i) = false := by
            simp only [Bool.and_eq_false_iff, beq_eq_false_iff_ne]
            exact Or.inl (by rw [hf.2.1]; decide)
          rw [hfalse]
          simpa using ih

lemma filter_remHotel_nil {now : Int} {l : List HotelRow} {i : Int}
    (h : ∀ q ∈ l, q.id ≠ i) :
    (l.filterMap (remHotel now)).filter
      (fun m => m.itemType == "hotel" && m.itemId == i) = [] := by
  induction l with
  | nil => rfl
  | cons q t ih =>
      have hq := h q (List.mem_cons_self q t)
      have ht := ih (fun a ha => h a (List.mem_cons_of_mem q ha))
      rw [List.filterMap_cons]
      cases hr : remHotel now q with
      | none => exact ht
      | some m =>
          rw [List.filter_cons]
          have hf := remHotel_fields hr
          have hfalse : (m.itemType == "hotel" && m.itemId == i) = false := by
            simp only [Bool.and_eq_false_iff, beq_eq_false_iff_ne]
            exact Or.inr (hf.2.2 ▸ hq)
          rw [hfalse]
          simpa using ht

lemma filter_remApp_hotel_nil {now : Int} {l : List AppRow} {i : Int} :
    (l.filterMap (remApp now)).filter
      (fun m => m.itemType == "hotel" && m.itemId == i) = [] := by
  induction l with
  | nil => rfl
  | cons q t ih =>
      rw [List.filterMap_cons]
      cases hr : remApp now q with
      | none => exact ih
      | some m =>
          rw [List.filter_cons]
          have hf := remApp_fields hr
          have hfalse : (m.itemType == "hotel" && m.itemId == i) = false := by
            simp only [Bool.and_eq_false_iff, beq_eq_false_iff_ne]
            exact Or.inl (by rw [hf.2.1]; decide)
          rw [hfalse]
          simpa using ih

lemma filter_remApp_of_mem {now : Int} {l : List AppRow} {r : AppRow}
    (hnd : (l.map (fun q => q.id)).Nodup) (hr : r ∈ l) :
    (l.filterMap (remApp now)).filter
      (fun m => m.itemType == "app" && m.itemId == r.id) =
    (remApp now r).toList := by
  induction l with
  | nil => cases hr
  | cons q t ih =>
      rw [List.map_cons, List.nodup_cons] at hnd
      rcases List.mem_cons.mp hr with rfl | hrt
      · have htail : ∀ a ∈ t, a.id ≠ r.id := by
          intro a ha he
          exact hnd.1 (he ▸ List.mem_map_of_mem (fun q => q.id) ha)
        rw [List.filterMap_cons]
        cases hm : remApp now r with
        | none =>
            simpa [Option.toList] using filter_remApp_nil htail
        | some m =>
            rw [List.filter_cons]
            have hf := remApp_fields hm
            have htrue : (m.itemType == "app" && m.itemId == r.id) = true := by
              simp [hf.2.1, hf.2.2]
            rw [htrue]
            simp only [Option.toList, if_true]
            rw [filter_remApp_nil htail]
      · have hqr : q.id ≠ r.id := by
          intro he
          exact hnd.1 (he ▸ List.mem_map_of_mem (fun q => q.id) hrt)
        rw [List.filterMap_cons]
        cases hm : remApp now q with
        | none => exact ih hnd.2 hrt
        | some m =>
            rw [List.filter_cons]
            have hf := remApp_fields hm
            have hfalse : (m.itemType == "app" && m.itemId == r.id) = false := by
              simp only [Bool.and_eq_false_iff, beq_eq_false_iff_ne]
              exact Or.inr (hf.2.2 ▸ hqr)
            rw [hfalse]
            simpa using ih hnd.2 hrt

lemma filter_remHotel_of_mem {now : Int} {l : List HotelRow} {r : HotelRow}
    (hnd : (l.map (fun q => q.id)).Nodup) (hr : r ∈ l) :
    (l.filterMap (remHotel now)).filter
      (fun m => m.itemType == "hotel" && m.itemId == r.id) =
    (remHotel now r).toList := by
  induction l with
  | nil => cases hr
  | cons q t ih =>
      rw [List.map_cons, List.nodup_cons] at hnd
      rcases List.mem_cons.mp hr with rfl | hrt
      · have htail : ∀ a ∈ t, a.id ≠ r.id := by
          intro a ha he
          exact hnd.1 (he ▸ List.mem_map_of_mem (fun q => q.id) ha)
        rw [List.filterMap_cons]
        cases hm : remHotel now r with
        | none =>
            simpa [Option.toList] using filter_remHotel_nil htail
        | some m =>
            rw [List.filter_cons]
            have hf := remHotel_fields hm
            have htrue : (m.itemType == "hotel" && m.itemId == r.id) = true := by
              simp [hf.2.1, hf.2.2]
            rw [htrue]
            simp only [Option.toList, if_true]
            rw [filter_remHotel_nil htail]
      · have hqr : q.id ≠ r.id := by
          intro he
          exact hnd.1 (he ▸ List.mem_map_of_mem (fun q => q.id) hrt)
        rw [List.filterMap_cons]
        cases hm : remHotel now q with
        | none => exact ih hnd.2 hrt
        | some m =>
            rw [List.filter_cons]
            have hf := remHotel_fields hm
            have hfalse : (m.itemType == "hotel" && m.itemId == r.id) = false := by
              simp only [Bool.and_eq_false_iff, beq_eq_false_iff_ne]
              exact Or.inr (hf.2.2 ▸ hqr)
            rw [hfalse]
            simpa using ih hnd.2 hrt

/-- Claim C9 (confirmed): on one invocation of the reminder check, a
Ticket Application (resp. Hotel Booking) whose parsed travel date (resp.
check-in date) lies between 3 and 4 days from now inclusive yields exactly
one reminder, addressed to the row's owning user; a record outside the
window — or whose date does not parse — yields none.  Ids are assumed
distinct per table, which every reachable live table satisfies. -/
theorem c9_reminder_window (now : Int) (apps : List AppRow)
    (hotels : List HotelRow)
    (ha : (apps.map (fun r => r.id)).Nodup)
    (hh : (hotels.map (fun r => r.id)).Nodup) :
    (∀ r ∈ apps,
      (check_reminders now apps hotels).filter
        (fun m => m.itemType == "app" && m.itemId == r.id) =
      match r.date with
      | some d =>
          if reminderWindow now d then
            [{ userId := r.userId, itemType := "app", itemId := r.id,
               tripDay := d }]
          else []
      | none => []) ∧
    (∀ r ∈ hotels,
      (check_reminders now apps hotels).filter
        (fun m => m.itemType == "hotel" && m.itemId == r.id) =
      match r.checkIn with
      | some d =>
          if reminderWindow now d then
            [{ userId := r.userId, itemType := "hotel", itemId := r.id,
               tripDay := d }]
          else []
      | none => []) := by
  constructor
  · intro r hr
    rw [check_reminders, List.filter_append, filter_remApp_of_mem ha hr,
      filter_remHotel_app_nil, List.append_nil]
    cases hd : r.date with
    | none => simp [remApp, hd]
    | some d =>
        by_cases hw : reminderWindow now d <;>
          simp [remApp, hd, hw, Option.toList]
  · intro r hr
    rw [check_reminders, List.filter_append, filter_remHotel_of_mem hh hr,
      filter_remApp_hotel_nil, List.nil_append]
    cases hd : r.checkIn with
    | none => simp [remHotel, hd]
    | some d =>
        by_cases hw : reminderWindow now d <;>
          simp [remHotel, hd, hw, Option.toList]

/-- Rows for the reminder witness: with now = 0, day 3 is exactly 3 days
out (eligible), day 10 is outside the window, day 4 is exactly 4 days out
(eligible). -/
def remApps : List AppRow :=
  [{ sampleApp with id := 1, date := some 3 },
   { sampleApp with id := 2, date := some 10 }]

def remHotels : List HotelRow :=
  [{ id := 9, userId := 66, fio := "Фарход", hotelCity := "Бухара"
   , checkIn := some 4, checkOut := some 6, roomType := "Семейный"
   , status := pendingStatus }]

/-- Witness for `c9_reminder_window` at a concrete scan: the in-window
application yields exactly one reminder to its owner, the out-of-window one
yields none, the in-window hotel booking yields one. -/
theorem c9_witness :
    ((remApps.map (fun r => r.id)).Nodup ∧
     (remHotels.map (fun r => r.id)).Nodup) ∧
    (∀ r ∈ remApps,
      (check_reminders 0 remApps remHotels).filter
        (fun m => m.itemType == "app" && m.itemId == r.id) =
      match r.date with
      | some d =>
          if reminderWindow 0 d then
            [{ userId := r.userId, itemType := "app", itemId := r.id,
               tripDay := d }]
          else []
      | none => []) ∧
    (∀ r ∈ remHotels,
      (check_reminders 0 remApps remHotels).filter
        (fun m => m.itemType == "hotel" && m.itemId == r.id) =
      match r.checkIn with
      | some d =>
          if reminderWindow 0 d then
            [{ userId := r.userId, itemType := "hotel", itemId := r.id,
               tripDay := d }]
          else []
      | none => []) :=
  ⟨⟨by decide, by decide⟩,
   (c9_reminder_window 0 remApps remHotels (by decide) (by decide)).1,
   (c9_reminder_window 0 remApps remHotels (by decide) (by decide)).2⟩

/-! ## Claim C8: outbound-date validation -/

/-- Claim C8 (confirmed): in the outbound-date state, a text whose parsed
date is strictly before today is rejected — the handler re-prompts and the
session (state, draft, tables, logs) is completely unchanged; a text whose
parsed date equals today is accepted — the date and time-of-day land in the
draft and the dialogue advances (to the return-date question's date entry
for a round trip, otherwise to the reason step), leaving the stored tables
untouched. -/
theorem c8_outbound_date_validation (uid : Int) (s : Sess) (today : Nat)
    (t : String) (dt : Nat) (tod : Option String) (pRange : Option (Nat × Nat))
    (hst : s.st = CState.dateStr) :
    (dt < today →
      step uid s (Ev.msgText today t (some (dt, tod)) pRange) = s) ∧
    (dt = today →
      (step uid s (Ev.msgText today t (some (dt, tod)) pRange)).d.date =
        some dt ∧
      (step uid s (Ev.msgText today t (some (dt, tod)) pRange)).d.time_of_day =
        some (tod.getD "") ∧
      (step uid s (Ev.msgText today t (some (dt, tod)) pRange)).st =
        (if s.d.is_round_trip.getD false then CState.returnDate
         else CState.reason) ∧
      (step uid s (Ev.msgText today t (some (dt, tod)) pRange)).st ≠
        CState.dateStr ∧
      (step uid s (Ev.msgText today t (some (dt, tod)) pRange)).apps = s.apps ∧
      (step uid s (Ev.msgText today t (some (dt, tod)) pRange)).savedApps =
        s.savedApps) := by
  obtain ⟨st, d, apps, hotels, sa, sh⟩ := s
  simp only [Sess.st] at hst
  subst hst
  constructor
  · intro hlt
    have hrej : is_future_or_today today dt = false := by
      simp only [is_future_or_today, decide_eq_false_iff_not]
      omega
    simp [step, stepText, flow_date, hrej]
  · intro heq
    subst heq
    have hacc : is_future_or_today dt dt = true := by
      simp [is_future_or_today]
    simp only [step, stepText, flow_date, hacc, Bool.not_true]
    refine ⟨rfl, rfl, rfl, ?_, rfl, rfl⟩
    cases hrt : d.is_round_trip.getD false <;> simp [hrt]

/-- Witness for `c8_outbound_date_validation`: a concrete session sitting
at the outbound-date step with today = 50; day 49 would be rejected, day 50
accepted. -/
def c8sess : Sess :=
  { st := CState.dateStr
  , d := { name := some "Иванова Мария", passport := some "P1"
         , route := some "Самарканд - Ташкент", is_round_trip := some false }
  , apps := [], hotels := [], savedApps := [], savedHotels := [] }

theorem c8_witness :
    c8sess.st = CState.dateStr ∧
    ((49 < 50 →
      step 7 c8sess (Ev.msgText 50 "18.11.2025" (some (49, none)) none) =
        c8sess) ∧
     (49 = 50 →
      (step 7 c8sess (Ev.msgText 50 "18.11.2025" (some (49, none)) none)).d.date =
        some 49 ∧
      (step 7 c8sess
        (Ev.msgText 50 "18.11.2025" (some (49, none)) none)).d.time_of_day =
        some ((none : Option String).getD "") ∧
      (step 7 c8sess (Ev.msgText 50 "18.11.2025" (some (49, none)) none)).st =
        (if c8sess.d.is_round_trip.getD false then CState.returnDate
         else CState.reason) ∧
      (step 7 c8sess (Ev.msgText 50 "18.11.2025" (some (49, none)) none)).st ≠
        CState.dateStr ∧
      (step 7 c8sess (Ev.msgText 50 "18.11.2025" (some (49, none)) none)).apps =
        c8sess.apps ∧
      (step 7 c8sess
        (Ev.msgText 50 "18.11.2025" (some (49, none)) none)).savedApps =
        c8sess.savedApps)) ∧
    (step 7 c8sess (Ev.msgText 50 "19.11.2025" (some (50, none)) none)).st =
      CState.reason ∧
    (step 7 c8sess (Ev.msgText 50 "19.11.2025" (some (50, none)) none)).d.date =
      some 50 :=
  ⟨by decide,
   c8_outbound_date_validation 7 c8sess 50 "18.11.2025" 49 none none (by decide),
   by decide, by decide⟩

/-! ## Claim C1: the round-trip invariant of the intake dialogue -/

/-- What holds of the draft whenever the dialogue sits at the reason or
confirmation step: if the round-trip flag is set, a return date is present
and exceeds the outbound date whenever one is present, and the return route
is the derived reverse whenever the current outbound route has exactly two
" - "-separated segments. -/
def DraftOK (d : Draft) : Prop :=
  d.is_round_trip = some true →
    (∃ rd, d.return_date = some rd ∧ ∀ dep, d.date = some dep → dep < rd) ∧
    (∀ a b, pySplit (d.route.getD "") " - " = [a, b] →
      d.return_route = some (b ++ " - " ++ a))

def SessInv (s : Sess) : Prop :=
  (s.st = CState.reason ∨ s.st = CState.confirm) → DraftOK s.d

lemma draftOK_of_fields {d d' : Draft} (h : DraftOK d)
    (hrt : d'.is_round_trip = d.is_round_trip)
    (hdate : d'.date = d.date)
    (hret : d'.return_date = d.return_date)
    (hroute : d'.route = d.route)
    (hretr : d'.return_route = d.return_route) : DraftOK d' := by
  intro hrt'
  rw [hrt] at hrt'
  obtain ⟨⟨rd, hrd, hcmp⟩, hrev⟩ := h hrt'
  refine ⟨⟨rd, by rw [hret]; exact hrd, ?_⟩, ?_⟩
  · intro dep hdep
    exact hcmp dep (by rw [← hdate]; exact hdep)
  · intro a b hab
    rw [hretr]
    exact hrev a b (by rw [← hroute]; exact hab)

/-- The cleared draft after a confirmed save has no round-trip flag. -/
lemma draftOK_cleared (n p : Option String) :
    DraftOK { name := n, passport := p } := by
  intro h
  cases h

/-- The draft produced by an accepted `flow_return_date` input. -/
lemma draftOK_flow_return_date {d : Draft} {dt : Nat} {tod : Option String}
    (hrej : (match d.date with
             | some dep => decide (dt ≤ dep)
             | none => false) = false) :
    DraftOK { d with
              return_date := some dt,
              return_time_of_day := some (tod.getD ""),
              return_route := deriveReturnRoute (d.route.getD "")
                d.return_route } := by
  intro _
  constructor
  · refine ⟨dt, rfl, ?_⟩
    intro dep hdep
    have hdep' : d.date = some dep := hdep
    rw [hdep'] at hrej
    have := of_decide_eq_false hrej
    omega
  · intro a b hab
    have hab' : pySplit (d.route.getD "") " - " = [a, b] := hab
    show deriveReturnRoute (d.route.getD "") d.return_route =
      some (b ++ " - " ++ a)
    rw [deriveReturnRoute, hab']

lemma sessInv_of_st_notin {s : Sess}
    (h1 : s.st ≠ CState.reason) (h2 : s.st ≠ CState.confirm) : SessInv s :=
  fun hc => hc.elim (fun c => absurd c h1) (fun c => absurd c h2)

lemma step_preserves_inv (uid : Int) (s : Sess) (e : Ev) (h : SessInv s) :
    SessInv (step uid s e) := by
  obtain ⟨st, d, apps, hotels, sa, sh⟩ := s
  cases e with
  | startApp p =>
      cases p with
      | none => exact sessInv_of_st_notin (by simp [step]) (by simp [step])
      | some fio => exact sessInv_of_st_notin (by simp [step]) (by simp [step])
  | startHotel p =>
      cases p with
      | none => exact sessInv_of_st_notin (by simp [step]) (by simp [step])
      | some fio => exact sessInv_of_st_notin (by simp [step]) (by simp [step])
  | msgFile fid =>
      cases st with
      | passport => exact sessInv_of_st_notin (by simp [step]) (by simp [step])
      | name => exact h
      | route => exact h
      | dateStr => exact h
      | returnDate => exact h
      | reason => exact h
      | confirm => exact h
      | hotelCity => exact h
      | hotelDaterange => exact h
      | hotelRoomType => exact h
      | ended => exact h
  | cbRouteSelect r =>
      cases st with
      | route => exact sessInv_of_st_notin (by simp [step]) (by simp [step])
      | name => exact h
      | passport => exact h
      | dateStr => exact h
      | returnDate => exact h
      | reason => exact h
      | confirm => exact h
      | hotelCity => exact h
      | hotelDaterange => exact h
      | hotelRoomType => exact h
      | ended => exact h
  | cbRouteCustom =>
      cases st <;> exact h
  | cbReturnYes =>
      cases st with
      | returnDate => exact sessInv_of_st_notin (by simp [step]) (by simp [step])
      | name => exact h
      | passport => exact h
      | route => exact h
      | dateStr => exact h
      | reason => exact h
      | confirm => exact h
      | hotelCity => exact h
      | hotelDaterange => exact h
      | hotelRoomType => exact h
      | ended => exact h
  | cbReturnNo =>
      cases st with
      | returnDate => exact sessInv_of_st_notin (by simp [step]) (by simp [step])
      | name => exact h
      | passport => exact h
      | route => exact h
      | dateStr => exact h
      | reason => exact h
      | confirm => exact h
      | hotelCity => exact h
      | hotelDaterange => exact h
      | hotelRoomType => exact h
      | ended => exact h
  | cbRoomType key =>
      cases st with
      | reason =>
          intro _
          exact draftOK_of_fields (h (Or.inl rfl)) rfl rfl rfl rfl rfl
      | confirm =>
          intro _
          exact draftOK_of_fields (h (Or.inr rfl)) rfl rfl rfl rfl rfl
      | hotelRoomType =>
          exact sessInv_of_st_notin (by simp [step, hotelRoomSave])
            (by simp [step, hotelRoomSave])
      | name =>
          exact sessInv_of_st_notin (by simp [step, hotelRoomSave])
            (by simp [step, hotelRoomSave])
      | passport =>
          exact sessInv_of_st_notin (by simp [step, hotelRoomSave])
            (by simp [step, hotelRoomSave])
      | route =>
          exact sessInv_of_st_notin (by simp [step, hotelRoomSave])
            (by simp [step, hotelRoomSave])
      | dateStr =>
          exact sessInv_of_st_notin (by simp [step, hotelRoomSave])
            (by simp [step, hotelRoomSave])
      | returnDate =>
          exact sessInv_of_st_notin (by simp [step, hotelRoomSave])
            (by simp [step, hotelRoomSave])
      | hotelCity =>
          exact sessInv_of_st_notin (by simp [step, hotelRoomSave])
            (by simp [step, hotelRoomSave])
      | hotelDaterange =>
          exact sessInv_of_st_notin (by simp [step, hotelRoomSave])
            (by simp [step, hotelRoomSave])
      | ended =>
          exact sessInv_of_st_notin (by simp [step, hotelRoomSave])
            (by simp [step, hotelRoomSave])
  | cbConfirmApp =>
      cases st with
      | reason =>
          intro _
          exact draftOK_cleared d.name d.passport
      | confirm =>
          exact sessInv_of_st_notin (by simp [step, confirmApp])
            (by simp [step, confirmApp])
      | name =>
          exact sessInv_of_st_notin (by simp [step, confirmApp])
            (by simp [step, confirmApp])
      | passport =>
          exact sessInv_of_st_notin (by simp [step, confirmApp])
            (by simp [step, confirmApp])
      | route =>
          exact sessInv_of_st_notin (by simp [step, confirmApp])
            (by simp [step, confirmApp])
      | dateStr =>
          exact sessInv_of_st_notin (by simp [step, confirmApp])
            (by simp [step, confirmApp])
      | returnDate =>
          exact sessInv_of_st_notin (by simp [step, confirmApp])
            (by simp [step, confirmApp])
      | hotelCity =>
          exact sessInv_of_st_notin (by simp [step, confirmApp])
            (by simp [step, confirmApp])
      | hotelDaterange =>
          exact sessInv_of_st_notin (by simp [step, confirmApp])
            (by simp [step, confirmApp])
      | hotelRoomType =>
          exact sessInv_of_st_notin (by simp [step, confirmApp])
            (by simp [step, confirmApp])
      | ended =>
          exact sessInv_of_st_notin (by simp [step, confirmApp])
            (by simp [step, confirmApp])
  | cbCancelApp =>
      cases st with
      | confirm => exact sessInv_of_st_notin (by simp [step]) (by simp [step])
      | reason => exact h
      | name => exact h
      | passport => exact h
      | route => exact h
      | dateStr => exact h
      | returnDate => exact h
      | hotelCity => exact h
      | hotelDaterange => exact h
      | hotelRoomType => exact h
      | ended => exact h
  | msgText today t p1 p2 =>
      cases st with
      | name =>
          refine sessInv_of_st_notin ?_ ?_ <;>
            · dsimp only [step, stepText]
              split <;> simp
      | passport =>
          refine sessInv_of_st_notin ?_ ?_ <;>
            · dsimp only [step, stepText]
              split <;> simp
      | route =>
          exact sessInv_of_st_notin (by simp [step, stepText])
            (by simp [step, stepText])
      | hotelCity =>
          refine sessInv_of_st_notin ?_ ?_ <;>
            · dsimp only [step, stepText]
              split <;> simp
      | hotelDaterange =>
          refine sessInv_of_st_notin ?_ ?_ <;>
            · dsimp only [step, stepText]
              rcases p2 with _ | ⟨ci, co⟩
              · simp [flow_hotel_daterange]
              · dsimp only [flow_hotel_daterange]
                split
                · simp
                · split <;> simp
      | reason =>
          intro _
          exact draftOK_of_fields (h (Or.inl rfl)) rfl rfl rfl rfl rfl
      | confirm => exact h
      | hotelRoomType => exact h
      | ended => exact h
      | dateStr =>
          show SessInv (flow_date today p1
            ⟨CState.dateStr, d, apps, hotels, sa, sh⟩)
          rcases p1 with _ | ⟨dt, tod⟩
          · exact h
          · by_cases hfut : is_future_or_today today dt = true
            · have hfix : flow_date today (some (dt, tod))
                  ⟨CState.dateStr, d, apps, hotels, sa, sh⟩ =
                  ⟨if d.is_round_trip.getD false then CState.returnDate
                    else CState.reason,
                   { d with date := some dt, time_of_day := some (tod.getD "") },
                   apps, hotels, sa, sh⟩ := by
                simp [flow_date, hfut]
              rw [hfix]
              by_cases hrt : d.is_round_trip.getD false = true
              · exact sessInv_of_st_notin (by simp [hrt]) (by simp [hrt])
              · intro _ hrt'
                have hx : d.is_round_trip = some true := hrt'
                rw [hx] at hrt
                simp at hrt
            · rw [Bool.not_eq_true] at hfut
              have hfix : flow_date today (some (dt, tod))
                  ⟨CState.dateStr, d, apps, hotels, sa, sh⟩ =
                  ⟨CState.dateStr, d, apps, hotels, sa, sh⟩ := by
                simp [flow_date, hfut]
              rw [hfix]
              exact h
      | returnDate =>
          show SessInv (flow_return_date p1
            ⟨CState.returnDate, d, apps, hotels, sa, sh⟩)
          rcases p1 with _ | ⟨dt, tod⟩
          · exact h
          · by_cases hrej : (match d.date with
                | some dep => decide (dt ≤ dep)
                | none => false) = true
            · have hfix : flow_return_date (some (dt, tod))
                  ⟨CState.returnDate, d, apps, hotels, sa, sh⟩ =
                  ⟨CState.returnDate, d, apps, hotels, sa, sh⟩ := by
                simp [flow_return_date, hrej]
              rw [hfix]
              exact h
            · rw [Bool.not_eq_true] at hrej
              intro _
              have hd : (flow_return_date (some (dt, tod))
                  ⟨CState.returnDate, d, apps, hotels, sa, sh⟩).d =
                  { d with
                    return_date := some dt,
                    return_time_of_day := some (tod.getD ""),
                    return_route := deriveReturnRoute (d.route.getD "")
                      d.return_route } := by
                simp [flow_return_date, hrej]
              rw [hd]
              exact draftOK_flow_return_date hrej

lemma run_inv (uid : Int) (evs : List Ev) (s : Sess) (h : SessInv s) :
    SessInv (run uid s evs) := by
  induction evs generalizing s with
  | nil => exact h
  | cons e t ih => exact ih (step uid s e) (step_preserves_inv uid s e h)

/-- Claim C1 (amended): for every Ticket Application persisted by the
confirmation step (the `confirm_app` callback arriving while the dialogue
is at the confirmation state) with is-round-trip = true: the return date
is non-empty; the return date is strictly after the outbound date WHENEVER
the outbound date is non-empty (a stale-button re-entry can leave it
empty — see the counterexample); and the return route is the exact textual
reverse of the outbound route whenever that route has exactly two
" - "-separated segments (for any other route shape the return route can
be empty, contradicting the claim's unconditional non-emptiness — see the
counterexample). -/
theorem c1_roundtrip_invariant (uid : Int) (apps0 : List AppRow)
    (hotels0 : List HotelRow) (evs : List Ev)
    (hconfirm : (run uid (initSess apps0 hotels0) evs).st = CState.confirm) :
    let s := run uid (initSess apps0 hotels0) evs
    let row := mkAppRow (next_id (appsToDF s.apps)) uid s.d pendingStatus
    (step uid s Ev.cbConfirmApp).savedApps = s.savedApps ++ [row] ∧
    (row.isRoundTrip = true →
      row.returnDate ≠ none ∧
      (∀ dep rd, row.date = some dep → row.returnDate = some rd → dep < rd) ∧
      (∀ a b, pySplit row.route " - " = [a, b] →
        row.returnRoute = b ++ " - " ++ a)) := by
  intro s row
  have hinv : SessInv s := by
    refine run_inv uid evs _ ?_
    intro hc
    simp [initSess] at hc
  have hok : DraftOK s.d := hinv (Or.inr hconfirm)
  constructor
  · rfl
  · intro hrt
    have hrt' : s.d.is_round_trip = some true := by
      have : s.d.is_round_trip.getD false = true := hrt
      cases hb : s.d.is_round_trip with
      | none => rw [hb] at this; cases this
      | some b =>
          rw [hb] at this
          cases b with
          | false => simp at this
          | true => rfl
    obtain ⟨⟨rd, hrd, hcmp⟩, hrev⟩ := hok hrt'
    refine ⟨?_, ?_, ?_⟩
    · show s.d.return_date ≠ none
      rw [hrd]
      exact Option.some_ne_none rd
    · intro dep rd' hdep hrd'
      have h1 : s.d.date = some dep := hdep
      have h2 : s.d.return_date = some rd' := hrd'
      rw [hrd] at h2
      cases h2
      exact hcmp dep h1
    · intro a b hab
      have hab' : pySplit (s.d.route.getD "") " - " = [a, b] := hab
      show s.d.return_route.getD "" = b ++ " - " ++ a
      rw [hrev a b hab']
      rfl

/-- Counterexample trace A: profile-prefilled start, passport photo, the
free-text single-segment route "Ташкент", round trip chosen, outbound day
100, return day 200, reason, then the dialogue reaches the confirmation
state (the confirm tap itself is appended in the counterexample). -/
def c1prefixA : List Ev :=
  [ Ev.startApp (some "Иванова Мария")
  , Ev.msgFile "P1"
  , Ev.msgText 50 "Ташкент" none none
  , Ev.cbReturnYes
  , Ev.msgText 50 "10.06.2026" (some (100, none)) none
  , Ev.msgText 50 "18.09.2026" (some (200, none)) none
  , Ev.msgText 50 "работа" none none ]

/-- Counterexample trace B: the user picks a route and answers "yes" to the
round-trip question, then re-enters the dialogue through a stale `start_app`
button before ever entering the outbound date; back at the shared
RETURN_DATE state they send a date as free text, which `flow_return_date`
accepts (no outbound date to compare against), and the dialogue reaches
confirmation with the round-trip flag set and the outbound date empty. -/
def c1prefixB : List Ev :=
  [ Ev.startApp (some "Иванова Мария")
  , Ev.msgFile "P1"
  , Ev.cbRouteSelect "Самарканд - Ташкент"
  , Ev.cbReturnYes
  , Ev.startApp (some "Иванова Мария")
  , Ev.msgFile "P1"
  , Ev.cbRouteSelect "Самарканд - Ташкент"
  , Ev.msgText 50 "18.09.2026" (some (200, none)) none
  , Ev.msgText 50 "работа" none none ]

/-- Claim C1 counterexample: two dialogues that end at the confirmation
step and persist a Ticket Application with is-round-trip = true whose
fields violate the claim — trace A saves an EMPTY return route (its
outbound route has a single segment, so no reverse is derived), and trace
B saves an EMPTY outbound date (so the return date is not strictly after
any outbound date). -/
theorem c1_counterexample :
    (run 7 (initSess [] []) c1prefixA).st = CState.confirm ∧
    (run 7 (initSess [] []) (c1prefixA ++ [Ev.cbConfirmApp])).savedApps.map
      (fun r => (r.isRoundTrip, r.returnRoute)) = [(true, "")] ∧
    (run 7 (initSess [] []) c1prefixB).st = CState.confirm ∧
    (run 7 (initSess [] []) (c1prefixB ++ [Ev.cbConfirmApp])).savedApps.map
      (fun r => (r.isRoundTrip, r.date, r.returnDate)) =
      [(true, none, some 200)] := by
  decide

/-- A well-behaved dialogue: two-segment route, round trip, outbound day
100, return day 200, reaching the confirmation state. -/
def c1prefixG : List Ev :=
  [ Ev.startApp none
  , Ev.msgText 50 "Иванова Мария" none none
  , Ev.msgFile "P1"
  , Ev.cbRouteSelect "Самарканд - Ташкент"
  , Ev.cbReturnYes
  , Ev.msgText 50 "10.06.2026 утром" (some (100, some "утром")) none
  , Ev.msgText 50 "18.09.2026" (some (200, none)) none
  , Ev.msgText 50 "работа" none none ]

/-- Witness for `c1_roundtrip_invariant` on the well-behaved dialogue. -/
theorem c1_witness :
    (run 7 (initSess [] []) c1prefixG).st = CState.confirm ∧
    (let s := run 7 (initSess [] []) c1prefixG
     let row := mkAppRow (next_id (appsToDF s.apps)) 7 s.d pendingStatus
     (step 7 s Ev.cbConfirmApp).savedApps = s.savedApps ++ [row] ∧
     (row.isRoundTrip = true →
       row.returnDate ≠ none ∧
       (∀ dep rd, row.date = some dep → row.returnDate = some rd → dep < rd) ∧
       (∀ a b, pySplit row.route " - " = [a, b] →
         row.returnRoute = b ++ " - " ++ a))) :=
  ⟨by decide, c1_roundtrip_invariant 7 [] [] c1prefixG (by decide)⟩

end TicketBot
